import Mathlib

/-!
Shallow embedding of the Mergington High School activities service
(`src/db.py` and `src/app.py`).

The store is the JSON/in-memory fallback backend of `db.py`: a mapping
from activity name to an activity record.  Python's dict is modelled as
an association list preserving insertion order; exceptions become an
`Except` error type whose constructors carry the source's names.
-/

namespace Mergington

/-- An activity record, as stored in `_in_memory` in `src/db.py`:
description, schedule, optional capacity (`max_participants is None`
means unlimited) and the ordered roster of participant emails. -/
structure Activity where
  description : String
  schedule : String
  max_participants : Option Nat
  participants : List String
deriving Repr, DecidableEq

/-- The backing store: a mapping activity-name → record (`_in_memory`). -/
abbrev Store := List (String × Activity)

/-- The typed failures raised by `src/db.py`. -/
inductive DbError where
  | ActivityNotFoundError
  | AlreadySignedUpError
  | NotSignedUpError
  | ActivityFullError
deriving Repr, DecidableEq

/-- Dict lookup `_in_memory[activity_name]` (with the
`activity_name not in _in_memory` membership test as `none`). -/
def getActivity : Store → String → Option Activity
  | [], _ => none
  | (k, v) :: rest, name => if k = name then some v else getActivity rest name

/-- In-place mutation of the record held under `name` in the dict:
every entry keyed `name` now holds `act`; all other entries unchanged. -/
def setActivity : Store → String → Activity → Store
  | [], _, _ => []
  | (k, v) :: rest, name, act =>
    (if k = name then (k, act) else (k, v)) :: setActivity rest name act

/-- `db.get_activities()` in the fallback backend returns `_in_memory`. -/
def get_activities (store : Store) : Store := store

/-- `db.signup(activity_name, email)`, fallback branch of `src/db.py`
lines 142-150: unknown name raises `ActivityNotFoundError`; an email
already on the roster raises `AlreadySignedUpError`; a roster already at
or over a set capacity raises `ActivityFullError`; otherwise the email
is appended to the roster. -/
def signup (store : Store) (activity_name email : String) :
    Except DbError Store :=
  match getActivity store activity_name with
  | none => .error .ActivityNotFoundError
  | some activity =>
    if email ∈ activity.participants then
      .error .AlreadySignedUpError
    else
      match activity.max_participants with
      | some maxp =>
        if activity.participants.length ≥ maxp then
          .error .ActivityFullError
        else
          .ok (setActivity store activity_name
                { activity with participants := activity.participants ++ [email] })
      | none =>
        .ok (setActivity store activity_name
              { activity with participants := activity.participants ++ [email] })

/-- `db.unregister(activity_name, email)`, fallback branch of
`src/db.py` lines 165-171: unknown name raises `ActivityNotFoundError`;
an email not on the roster raises `NotSignedUpError`; otherwise
`list.remove` deletes the first matching entry. -/
def unregister (store : Store) (activity_name email : String) :
    Except DbError Store :=
  match getActivity store activity_name with
  | none => .error .ActivityNotFoundError
  | some activity =>
    if email ∈ activity.participants then
      .ok (setActivity store activity_name
            { activity with participants := activity.participants.erase email })
    else
      .error .NotSignedUpError

/-- `db.ensure_seed(json_path)` (`src/db.py` lines 83-104).  In database
mode it seeds the collection from the source only when the collection is
empty; in fallback mode it is `_load_json`, which replaces `_in_memory`
with the parsed source wholesale. -/
def ensure_seed (using_db : Bool) (source : Store) (store : Store) : Store :=
  if using_db then
    if store = [] then source else store
  else
    source

/-- `startup_event` (`src/app.py` lines 25-29): seeding runs only when
a database is configured (`db.using_db`). -/
def startup_event (using_db : Bool) (source : Store) (store : Store) : Store :=
  if using_db then ensure_seed using_db source store else store

/-- An HTTP response of the API layer together with the store state
after the request. -/
structure ApiResult where
  status : Nat
  body : String
  store : Store
deriving Repr, DecidableEq

/-- `signup_for_activity` (`src/app.py` lines 42-54): translates the
store's typed failures to 404/400 responses with fixed messages; on
success returns 200 and a message naming the email and activity.  An
exception the handler does not catch would surface as a 500. -/
def signup_for_activity (store : Store) (activity_name email : String) :
    ApiResult :=
  match signup store activity_name email with
  | .ok s => ⟨200, s!"Signed up {email} for {activity_name}", s⟩
  | .error .ActivityNotFoundError => ⟨404, "Activity not found", store⟩
  | .error .AlreadySignedUpError => ⟨400, "Student is already signed up", store⟩
  | .error .ActivityFullError => ⟨400, "Activity is full", store⟩
  | .error .NotSignedUpError => ⟨500, "Internal Server Error", store⟩

/-- `unregister_from_activity` (`src/app.py` lines 57-67). -/
def unregister_from_activity (store : Store) (activity_name email : String) :
    ApiResult :=
  match unregister store activity_name email with
  | .ok s => ⟨200, s!"Unregistered {email} from {activity_name}", s⟩
  | .error .ActivityNotFoundError => ⟨404, "Activity not found", store⟩
  | .error .NotSignedUpError =>
      ⟨400, "Student is not signed up for this activity", store⟩
  | .error .AlreadySignedUpError => ⟨500, "Internal Server Error", store⟩
  | .error .ActivityFullError => ⟨500, "Internal Server Error", store⟩

/-- A mutating store operation, for reasoning about request sequences. -/
inductive Op where
  | signup (activity_name email : String)
  | unregister (activity_name email : String)
deriving Repr, DecidableEq

/-- Run one operation; a raised error leaves the store untouched (the
exception is raised before any mutation in `src/db.py`). -/
def applyOp (store : Store) : Op → Store
  | .signup n e =>
    match signup store n e with
    | .ok s => s
    | .error _ => store
  | .unregister n e =>
    match unregister store n e with
    | .ok s => s
    | .error _ => store

/-- The capacity invariant of one record: when `max_participants` is
set, the roster is no longer than it. -/
def capOk (a : Activity) : Prop :=
  ∀ m, a.max_participants = some m → a.participants.length ≤ m

instance (a : Activity) : Decidable (capOk a) :=
  match h : a.max_participants with
  | none => isTrue (by intro m hm; rw [h] at hm; cases hm)
  | some m =>
    if hle : a.participants.length ≤ m then
      isTrue (by intro k hk; rw [h] at hk; cases hk; exact hle)
    else
      isFalse (fun hc => hle (hc m h))

/-- Both record invariants of the spec's data model: no duplicate email
on the roster, and the roster within capacity. -/
def activityOk (a : Activity) : Prop :=
  a.participants.Nodup ∧ capOk a

instance (a : Activity) : Decidable (activityOk a) :=
  inferInstanceAs (Decidable (_ ∧ _))

/-- Every record in the store satisfies both invariants. -/
def storeOk (s : Store) : Prop :=
  ∀ p ∈ s, activityOk p.2

instance (s : Store) : Decidable (storeOk s) :=
  List.decidableBAll _ s

/-! ### Association-list lemmas -/

theorem getActivity_mem {s : Store} {n : String} {a : Activity}
    (h : getActivity s n = some a) : (n, a) ∈ s := by
  induction s with
  | nil => simp [getActivity] at h
  | cons p rest ih =>
    obtain ⟨k, v⟩ := p
    by_cases hk : k = n
    · subst hk
      simp [getActivity] at h
      subst h
      exact List.mem_cons_self _ _
    · simp [getActivity, hk] at h
      exact List.mem_cons_of_mem _ (ih h)

theorem getActivity_setActivity_self {s : Store} {n : String} {a act : Activity}
    (h : getActivity s n = some a) :
    getActivity (setActivity s n act) n = some act := by
  induction s with
  | nil => simp [getActivity] at h
  | cons p rest ih =>
    obtain ⟨k, v⟩ := p
    by_cases hk : k = n
    · rw [setActivity, if_pos hk, getActivity, if_pos hk]
    · rw [setActivity, if_neg hk, getActivity, if_neg hk]
      rw [getActivity, if_neg hk] at h
      exact ih h

theorem getActivity_setActivity_ne {s : Store} {n n' : String} {act : Activity}
    (h : n' ≠ n) :
    getActivity (setActivity s n act) n' = getActivity s n' := by
  induction s with
  | nil => simp [setActivity, getActivity]
  | cons p rest ih =>
    obtain ⟨k, v⟩ := p
    rw [setActivity]
    by_cases hk : k = n
    · have hk' : ¬ (k = n') := fun hh => h (hh ▸ hk)
      rw [if_pos hk, getActivity, if_neg hk', getActivity, if_neg hk']
      exact ih
    · rw [if_neg hk]
      by_cases hk' : k = n'
      · rw [getActivity, if_pos hk', getActivity, if_pos hk']
      · rw [getActivity, if_neg hk', getActivity, if_neg hk']
        exact ih

theorem mem_setActivity {s : Store} {n : String} {act : Activity}
    {p : String × Activity} (h : p ∈ setActivity s n act) :
    p.2 = act ∨ p ∈ s := by
  induction s with
  | nil => simp [setActivity] at h
  | cons q rest ih =>
    obtain ⟨k, v⟩ := q
    rw [setActivity] at h
    by_cases hk : k = n
    · rw [if_pos hk] at h
      rcases List.mem_cons.mp h with h | h
      · subst h
        exact Or.inl rfl
      · rcases ih h with h2 | h2
        · exact Or.inl h2
        · exact Or.inr (List.mem_cons_of_mem _ h2)
    · rw [if_neg hk] at h
      rcases List.mem_cons.mp h with h | h
      · subst h
        exact Or.inr (List.mem_cons_self _ _)
      · rcases ih h with h2 | h2
        · exact Or.inl h2
        · exact Or.inr (List.mem_cons_of_mem _ h2)

theorem setActivity_setActivity {s : Store} {n : String} {b c : Activity} :
    setActivity (setActivity s n b) n c = setActivity s n c := by
  induction s with
  | nil => rfl
  | cons q rest ih =>
    obtain ⟨k, v⟩ := q
    by_cases hk : k = n
    · rw [setActivity, if_pos hk, setActivity, if_pos hk, setActivity, if_pos hk, ih]
    · rw [setActivity, if_neg hk, setActivity, if_neg hk, setActivity, if_neg hk, ih]

theorem setActivity_not_mem {s : Store} {n : String} {act : Activity}
    (h : ¬ n ∈ s.map Prod.fst) : setActivity s n act = s := by
  induction s with
  | nil => rfl
  | cons q rest ih =>
    obtain ⟨k, v⟩ := q
    rw [List.map_cons, List.mem_cons] at h
    push_neg at h
    obtain ⟨hk, hrest⟩ := h
    have hk' : ¬ (k = n) := fun hh => hk hh.symm
    rw [setActivity, if_neg hk', ih hrest]

theorem setActivity_self {s : Store} {n : String} {a : Activity}
    (hkeys : (s.map Prod.fst).Nodup) (h : getActivity s n = some a) :
    setActivity s n a = s := by
  induction s with
  | nil => simp [getActivity] at h
  | cons q rest ih =>
    obtain ⟨k, v⟩ := q
    rw [List.map_cons, List.nodup_cons] at hkeys
    obtain ⟨hknot, hkrest⟩ := hkeys
    by_cases hk : k = n
    · rw [getActivity, if_pos hk] at h
      cases h
      rw [setActivity, if_pos hk, setActivity_not_mem (hk ▸ hknot)]
    · rw [getActivity, if_neg hk] at h
      rw [setActivity, if_neg hk, ih hkrest h]

/-! ### Characterizing signup and unregister -/

theorem signup_ok_intro {s : Store} {n e : String} {a : Activity}
    (hga : getActivity s n = some a) (he : e ∉ a.participants)
    (hcap : ∀ m, a.max_participants = some m → a.participants.length < m) :
    signup s n e =
      .ok (setActivity s n { a with participants := a.participants ++ [e] }) := by
  unfold signup
  rw [hga]
  dsimp only
  rw [if_neg he]
  cases hm : a.max_participants with
  | none => rfl
  | some maxp =>
    dsimp only
    rw [if_neg (not_le.mpr (hcap maxp hm))]

theorem signup_ok_elim {s s' : Store} {n e : String}
    (h : signup s n e = .ok s') :
    ∃ a, getActivity s n = some a ∧ e ∉ a.participants ∧
      (∀ m, a.max_participants = some m → a.participants.length < m) ∧
      s' = setActivity s n { a with participants := a.participants ++ [e] } := by
  unfold signup at h
  cases hga : getActivity s n with
  | none => rw [hga] at h; cases h
  | some a =>
    rw [hga] at h
    dsimp only at h
    by_cases he : e ∈ a.participants
    · rw [if_pos he] at h
      cases h
    · rw [if_neg he] at h
      cases hm : a.max_participants with
      | none =>
        rw [hm] at h
        cases h
        refine ⟨a, rfl, he, ?_, ?_⟩
        · intro m hmm
          rw [hm] at hmm
          cases hmm
        · rw [hm]
      | some maxp =>
        rw [hm] at h
        dsimp only at h
        by_cases hlen : a.participants.length ≥ maxp
        · rw [if_pos hlen] at h
          cases h
        · rw [if_neg hlen] at h
          cases h
          refine ⟨a, rfl, he, ?_, ?_⟩
          · intro m hmm
            rw [hm] at hmm
            cases hmm
            omega
          · rw [hm]

theorem unregister_ok_intro {s : Store} {n e : String} {a : Activity}
    (hga : getActivity s n = some a) (he : e ∈ a.participants) :
    unregister s n e =
      .ok (setActivity s n { a with participants := a.participants.erase e }) := by
  unfold unregister
  rw [hga]
  dsimp only
  rw [if_pos he]

theorem unregister_ok_elim {s s' : Store} {n e : String}
    (h : unregister s n e = .ok s') :
    ∃ a, getActivity s n = some a ∧ e ∈ a.participants ∧
      s' = setActivity s n { a with participants := a.participants.erase e } := by
  unfold unregister at h
  cases hga : getActivity s n with
  | none => rw [hga] at h; cases h
  | some a =>
    rw [hga] at h
    dsimp only at h
    by_cases he : e ∈ a.participants
    · rw [if_pos he] at h
      cases h
      exact ⟨a, rfl, he, rfl⟩
    · rw [if_neg he] at h
      cases h

theorem signup_not_found {s : Store} {n e : String}
    (h : getActivity s n = none) :
    signup s n e = .error .ActivityNotFoundError := by
  unfold signup
  rw [h]

theorem signup_already {s : Store} {n e : String} {a : Activity}
    (hga : getActivity s n = some a) (he : e ∈ a.participants) :
    signup s n e = .error .AlreadySignedUpError := by
  unfold signup
  rw [hga]
  dsimp only
  rw [if_pos he]

theorem signup_full {s : Store} {n e : String} {a : Activity} {m : Nat}
    (hga : getActivity s n = some a) (he : e ∉ a.participants)
    (hm : a.max_participants = some m) (hlen : a.participants.length ≥ m) :
    signup s n e = .error .ActivityFullError := by
  unfold signup
  rw [hga]
  dsimp only
  rw [if_neg he, hm]
  dsimp only
  rw [if_pos hlen]

theorem unregister_not_found {s : Store} {n e : String}
    (h : getActivity s n = none) :
    unregister s n e = .error .ActivityNotFoundError := by
  unfold unregister
  rw [h]

theorem unregister_not_signed {s : Store} {n e : String} {a : Activity}
    (hga : getActivity s n = some a) (he : e ∉ a.participants) :
    unregister s n e = .error .NotSignedUpError := by
  unfold unregister
  rw [hga]
  dsimp only
  rw [if_neg he]

theorem signup_ne_notSignedUp (s : Store) (n e : String) :
    signup s n e ≠ .error .NotSignedUpError := by
  intro h
  unfold signup at h
  cases hga : getActivity s n with
  | none => rw [hga] at h; cases h
  | some a =>
    rw [hga] at h
    dsimp only at h
    by_cases he : e ∈ a.participants
    · rw [if_pos he] at h
      cases h
    · rw [if_neg he] at h
      cases hm : a.max_participants with
      | none =>
        rw [hm] at h
        cases h
      | some maxp =>
        rw [hm] at h
        dsimp only at h
        by_cases hlen : a.participants.length ≥ maxp
        · rw [if_pos hlen] at h
          cases h
        · rw [if_neg hlen] at h
          cases h

theorem unregister_ne_already (s : Store) (n e : String) :
    unregister s n e ≠ .error .AlreadySignedUpError := by
  intro h
  unfold unregister at h
  cases hga : getActivity s n with
  | none => rw [hga] at h; cases h
  | some a =>
    rw [hga] at h
    dsimp only at h
    by_cases he : e ∈ a.participants
    · rw [if_pos he] at h
      cases h
    · rw [if_neg he] at h
      cases h

theorem unregister_ne_full (s : Store) (n e : String) :
    unregister s n e ≠ .error .ActivityFullError := by
  intro h
  unfold unregister at h
  cases hga : getActivity s n with
  | none => rw [hga] at h; cases h
  | some a =>
    rw [hga] at h
    dsimp only at h
    by_cases he : e ∈ a.participants
    · rw [if_pos he] at h
      cases h
    · rw [if_neg he] at h
      cases h

/-! ### Invariant preservation -/

theorem storeOk_setActivity {s : Store} {n : String} {act : Activity}
    (hs : storeOk s) (ha : activityOk act) : storeOk (setActivity s n act) := by
  intro p hp
  rcases mem_setActivity hp with h2 | h2
  · rw [h2]; exact ha
  · exact hs p h2

theorem activityOk_of_get {s : Store} {n : String} {a : Activity}
    (hs : storeOk s) (hga : getActivity s n = some a) : activityOk a :=
  hs (n, a) (getActivity_mem hga)

theorem storeOk_signup {s s' : Store} {n e : String}
    (hs : storeOk s) (h : signup s n e = .ok s') : storeOk s' := by
  rcases signup_ok_elim h with ⟨a, hga, he, hcap, rfl⟩
  have ha := activityOk_of_get hs hga
  apply storeOk_setActivity hs
  constructor
  · refine ha.1.append (List.nodup_singleton e) ?_
    intro x hx hxe
    rw [List.mem_singleton] at hxe
    subst hxe
    exact he hx
  · intro m hm
    dsimp only at hm ⊢
    have hlt := hcap m hm
    rw [List.length_append, List.length_singleton]
    omega

theorem storeOk_unregister {s s' : Store} {n e : String}
    (hs : storeOk s) (h : unregister s n e = .ok s') : storeOk s' := by
  rcases unregister_ok_elim h with ⟨a, hga, he, rfl⟩
  have ha := activityOk_of_get hs hga
  apply storeOk_setActivity hs
  constructor
  · exact ha.1.erase e
  · intro m hm
    dsimp only at hm ⊢
    have h1 := ha.2 m hm
    have h2 : (a.participants.erase e).length ≤ a.participants.length :=
      (List.erase_sublist e a.participants).length_le
    omega

theorem storeOk_applyOp {s : Store} (hs : storeOk s) (op : Op) :
    storeOk (applyOp s op) := by
  cases op with
  | signup n e =>
    cases h : Mergington.signup s n e with
    | ok s' =>
      have h2 := storeOk_signup hs h
      simpa [applyOp, h] using h2
    | error err => simpa [applyOp, h] using hs
  | unregister n e =>
    cases h : Mergington.unregister s n e with
    | ok s' =>
      have h2 := storeOk_unregister hs h
      simpa [applyOp, h] using h2
    | error err => simpa [applyOp, h] using hs

theorem storeOk_foldl {s : Store} (hs : storeOk s) (ops : List Op) :
    storeOk (ops.foldl applyOp s) := by
  induction ops generalizing s with
  | nil => exact hs
  | cons op rest ih => exact ih (storeOk_applyOp hs op)

/-! ### Fixtures: the spec's Chess Club scenario (capacity 2) -/

/-- The Chess Club record of the capacity scenario: `max_participants = 2`,
empty roster. -/
def chessClub : Activity :=
  { description := "Chess strategy club"
    schedule := "Fridays 3:30 PM"
    max_participants := some 2
    participants := [] }

/-- Chess Club after the first signup. -/
def chessA1 : Activity := { chessClub with participants := ["a@x.com"] }

/-- Chess Club after the second signup. -/
def chessA2 : Activity :=
  { chessClub with participants := ["a@x.com", "b@x.com"] }

/-- A store holding just the Chess Club with an empty roster. -/
def chessStore : Store := [("Chess Club", chessClub)]

/-- The store after signing up `a@x.com`. -/
def chessStore1 : Store := [("Chess Club", chessA1)]

/-- The store after also signing up `b@x.com`. -/
def chessStore2 : Store := [("Chess Club", chessA2)]

/-! ### The claims -/

/-- Claim C1: starting from a store whose rosters are duplicate-free and
within any set capacity, every sequence of signup/unregister operations
(each leaving the store untouched when it fails) preserves both
invariants, and the state `get_activities` reports after the sequence
satisfies them as well. -/
theorem claim_C1_invariants_preserved (s : Store) (ops : List Op)
    (hs : storeOk s) :
    storeOk (get_activities (ops.foldl applyOp s)) :=
  storeOk_foldl hs ops

/-- Witness for C1 at a concrete store and operation sequence. -/
theorem claim_C1_invariants_preserved_witness :
    storeOk (get_activities
      ([Op.signup "Chess Club" "a@x.com",
        Op.signup "Chess Club" "b@x.com",
        Op.signup "Chess Club" "c@x.com",
        Op.unregister "Chess Club" "a@x.com"].foldl applyOp chessStore)) :=
  claim_C1_invariants_preserved chessStore _ (by decide)

/-- Claim C2: signup on a known activity already at its set capacity
with a fresh email fails with `ActivityFullError`; on a known activity
with no capacity set it never fails with `ActivityFullError`; and in the
concrete Chess Club scenario (capacity 2, empty roster) two signups
succeed and the third fails as full. -/
theorem claim_C2_capacity (s : Store) (n e : String) (a : Activity) :
    (∀ m, getActivity s n = some a → e ∉ a.participants →
        a.max_participants = some m → a.participants.length = m →
        signup s n e = .error .ActivityFullError)
    ∧ (getActivity s n = some a → a.max_participants = none →
        signup s n e ≠ .error .ActivityFullError)
    ∧ signup chessStore "Chess Club" "a@x.com" = .ok chessStore1
    ∧ signup chessStore1 "Chess Club" "b@x.com" = .ok chessStore2
    ∧ signup chessStore2 "Chess Club" "c@x.com" = .error .ActivityFullError := by
  refine ⟨?_, ?_, rfl, rfl, rfl⟩
  · intro m hga he hm hlen
    exact signup_full hga he hm (le_of_eq hlen.symm)
  · intro hga hm h
    unfold signup at h
    rw [hga] at h
    dsimp only at h
    by_cases he : e ∈ a.participants
    · rw [if_pos he] at h
      cases h
    · rw [if_neg he, hm] at h
      cases h

/-- Witness for C2: a fourth email is rejected as full on the full
roster. -/
theorem claim_C2_capacity_witness :
    signup chessStore2 "Chess Club" "d@x.com" = .error .ActivityFullError :=
  (claim_C2_capacity chessStore2 "Chess Club" "d@x.com" chessA2).1 2
    rfl (by decide) rfl rfl

/-- Claim C3: signup on a known activity with a fresh email and free
capacity succeeds and appends the email at the end of the roster, and
that updated roster is what `get_activities` reports from then on. -/
theorem claim_C3_signup_appends (s : Store) (n e : String) (a : Activity)
    (hga : getActivity s n = some a) (he : e ∉ a.participants)
    (hcap : ∀ m, a.max_participants = some m → a.participants.length < m) :
    ∃ s', signup s n e = .ok s' ∧
      getActivity (get_activities s') n =
        some { a with participants := a.participants ++ [e] } :=
  ⟨_, signup_ok_intro hga he hcap, getActivity_setActivity_self hga⟩

/-- Witness for C3 on the Chess Club store. -/
theorem claim_C3_signup_appends_witness :
    getActivity (get_activities (applyOp chessStore
        (Op.signup "Chess Club" "a@x.com"))) "Chess Club" =
      some { chessClub with
              participants := chessClub.participants ++ ["a@x.com"] } := by
  obtain ⟨s', h1, h2⟩ :=
    claim_C3_signup_appends chessStore "Chess Club" "a@x.com" chessClub rfl
      (by decide) (by intro m hm; simp [chessClub] at hm ⊢; omega)
  simpa [applyOp, h1] using h2

/-- Claim C4 (refuted by the code): the spec expects process start to
seed an empty backing store from the static source.  With no database
configured (`using_db = false`) the startup hook skips `ensure_seed`
entirely, so from an empty in-memory store and a one-activity source,
`get_activities` still returns the empty mapping, not the seeded
activity. -/
theorem claim_C4_startup_skips_fallback_seeding :
    get_activities (startup_event false chessStore []) = [] ∧
      chessStore ≠ [] ∧
      ensure_seed false chessStore [] = chessStore :=
  ⟨rfl, by simp [chessStore], rfl⟩

/-- Claim C5: signing up an email already on the roster fails with
`AlreadySignedUpError`, and the failed operation leaves the store — in
particular the roster — unchanged. -/
theorem claim_C5_duplicate_signup (s : Store) (n e : String) (a : Activity)
    (hga : getActivity s n = some a) (he : e ∈ a.participants) :
    signup s n e = .error .AlreadySignedUpError ∧
      applyOp s (.signup n e) = s := by
  have h1 := signup_already hga he
  exact ⟨h1, by simp [applyOp, h1]⟩

/-- Witness for C5: the second signup of `a@x.com` fails. -/
theorem claim_C5_duplicate_signup_witness :
    signup chessStore1 "Chess Club" "a@x.com" = .error .AlreadySignedUpError ∧
      applyOp chessStore1 (.signup "Chess Club" "a@x.com") = chessStore1 :=
  claim_C5_duplicate_signup chessStore1 "Chess Club" "a@x.com" chessA1 rfl
    (by decide)

/-- Claim C6: unregister on a known activity fails with
`NotSignedUpError` and changes nothing when the email is not on the
roster; when the email is present it succeeds and removes the single
matching entry (the first occurrence, unique under the no-duplicates
invariant). -/
theorem claim_C6_unregister (s : Store) (n e : String) (a : Activity)
    (hga : getActivity s n = some a) :
    (e ∉ a.participants →
      unregister s n e = .error .NotSignedUpError ∧
        applyOp s (.unregister n e) = s)
    ∧ (e ∈ a.participants →
      unregister s n e =
        .ok (setActivity s n
          { a with participants := a.participants.erase e })) := by
  constructor
  · intro he
    have h1 := unregister_not_signed hga he
    exact ⟨h1, by simp [applyOp, h1]⟩
  · intro he
    exact unregister_ok_intro hga he

/-- Witness for C6, exercising both the absent- and present-email
cases on the one-member roster. -/
theorem claim_C6_unregister_witness :
    (unregister chessStore1 "Chess Club" "zz@x.com" =
        .error .NotSignedUpError ∧
      applyOp chessStore1 (.unregister "Chess Club" "zz@x.com") =
        chessStore1)
    ∧ unregister chessStore1 "Chess Club" "a@x.com" =
        .ok (setActivity chessStore1 "Chess Club"
          { chessA1 with participants := chessA1.participants.erase "a@x.com" }) :=
  ⟨(claim_C6_unregister chessStore1 "Chess Club" "zz@x.com" chessA1 rfl).1
      (by decide),
    (claim_C6_unregister chessStore1 "Chess Club" "a@x.com" chessA1 rfl).2
      (by decide)⟩

/-- Claim C7: both signup and unregister on an unknown activity name
fail with `ActivityNotFoundError` and leave the store unchanged. -/
theorem claim_C7_unknown_activity (s : Store) (n e : String)
    (hga : getActivity s n = none) :
    signup s n e = .error .ActivityNotFoundError ∧
      unregister s n e = .error .ActivityNotFoundError ∧
      applyOp s (.signup n e) = s ∧
      applyOp s (.unregister n e) = s := by
  have h1 := signup_not_found (e := e) hga
  have h2 := unregister_not_found (e := e) hga
  exact ⟨h1, h2, by simp [applyOp, h1], by simp [applyOp, h2]⟩

/-- Witness for C7: the store knows no "Art Club". -/
theorem claim_C7_unknown_activity_witness :
    signup chessStore "Art Club" "a@x.com" = .error .ActivityNotFoundError ∧
      unregister chessStore "Art Club" "a@x.com" =
        .error .ActivityNotFoundError ∧
      applyOp chessStore (.signup "Art Club" "a@x.com") = chessStore ∧
      applyOp chessStore (.unregister "Art Club" "a@x.com") = chessStore :=
  claim_C7_unknown_activity chessStore "Art Club" "a@x.com" (by decide)

/-- Claim C8: on a store with pairwise-distinct activity names, a
successful signup of a fresh email followed by its unregister restores
the exact prior store — the roster round-trips to its prior state. -/
theorem claim_C8_round_trip (s : Store) (n e : String) (a : Activity)
    (hkeys : (s.map Prod.fst).Nodup)
    (hga : getActivity s n = some a) (he : e ∉ a.participants)
    (hcap : ∀ m, a.max_participants = some m → a.participants.length < m) :
    ∃ s', signup s n e = .ok s' ∧ unregister s' n e = .ok s := by
  obtain ⟨d, sched, mp, ps⟩ := a
  refine ⟨_, signup_ok_intro hga he hcap, ?_⟩
  have hga1 : getActivity
      (setActivity s n ⟨d, sched, mp, ps ++ [e]⟩) n =
      some ⟨d, sched, mp, ps ++ [e]⟩ :=
    getActivity_setActivity_self hga
  have he1 : e ∈ ps ++ [e] :=
    List.mem_append_right _ (List.mem_singleton.mpr rfl)
  have h2 := unregister_ok_intro hga1 he1
  rw [h2]
  dsimp only
  have herase : (ps ++ [e]).erase e = ps := by
    rw [List.erase_append_right _ he, List.erase_cons_head, List.append_nil]
  rw [herase, setActivity_setActivity, setActivity_self hkeys hga]

/-- Witness for C8: signup then unregister of `a@x.com` returns the
Chess Club store to its initial state. -/
theorem claim_C8_round_trip_witness :
    applyOp (applyOp chessStore (Op.signup "Chess Club" "a@x.com"))
      (Op.unregister "Chess Club" "a@x.com") = chessStore := by
  obtain ⟨s', h1, h2⟩ :=
    claim_C8_round_trip chessStore "Chess Club" "a@x.com" chessClub
      (by decide) rfl (by decide)
      (by intro m hm; simp [chessClub] at hm ⊢; omega)
  simp [applyOp, h1, h2]

/-- Claim C9: the API layer translates store outcomes deterministically:
404 for `ActivityNotFoundError`, 400 for the other three failures, each
with its fixed human-readable message, and 200 with a message on
success; the store never produces the failures a handler does not catch
(which would escape as a 500). -/
theorem claim_C9_http_mapping (s : Store) (n e : String) :
    (signup s n e = .error .ActivityNotFoundError →
      signup_for_activity s n e = ⟨404, "Activity not found", s⟩)
    ∧ (signup s n e = .error .AlreadySignedUpError →
      signup_for_activity s n e = ⟨400, "Student is already signed up", s⟩)
    ∧ (signup s n e = .error .ActivityFullError →
      signup_for_activity s n e = ⟨400, "Activity is full", s⟩)
    ∧ (∀ s', signup s n e = .ok s' →
      signup_for_activity s n e = ⟨200, s!"Signed up {e} for {n}", s'⟩)
    ∧ (unregister s n e = .error .ActivityNotFoundError →
      unregister_from_activity s n e = ⟨404, "Activity not found", s⟩)
    ∧ (unregister s n e = .error .NotSignedUpError →
      unregister_from_activity s n e =
        ⟨400, "Student is not signed up for this activity", s⟩)
    ∧ (∀ s', unregister s n e = .ok s' →
      unregister_from_activity s n e =
        ⟨200, s!"Unregistered {e} from {n}", s'⟩)
    ∧ signup s n e ≠ .error .NotSignedUpError
    ∧ unregister s n e ≠ .error .AlreadySignedUpError
    ∧ unregister s n e ≠ .error .ActivityFullError := by
  refine ⟨?_, ?_, ?_, ?_, ?_, ?_, ?_, signup_ne_notSignedUp s n e,
    unregister_ne_already s n e, unregister_ne_full s n e⟩
  · intro h
    simp [signup_for_activity, h]
  · intro h
    simp [signup_for_activity, h]
  · intro h
    simp [signup_for_activity, h]
  · intro s' h
    simp [signup_for_activity, h]
  · intro h
    simp [unregister_from_activity, h]
  · intro h
    simp [unregister_from_activity, h]
  · intro s' h
    simp [unregister_from_activity, h]

/-- Witness for C9: an unknown activity yields a 404 response. -/
theorem claim_C9_http_mapping_witness :
    signup_for_activity chessStore "Art Club" "a@x.com" =
      ⟨404, "Activity not found", chessStore⟩ :=
  (claim_C9_http_mapping chessStore "Art Club" "a@x.com").1 rfl

/-- Claim C10 (frame property): a signup or unregister on activity `n`,
successful or failing, leaves every other activity's record untouched
and preserves `n`'s description, schedule and capacity — only `n`'s
participants list may change. -/
theorem claim_C10_frame (s : Store) (n e : String) (op : Op)
    (hop : op = .signup n e ∨ op = .unregister n e) :
    (∀ n', n' ≠ n → getActivity (applyOp s op) n' = getActivity s n')
    ∧ (∀ a, getActivity s n = some a →
        ∃ a', getActivity (applyOp s op) n = some a' ∧
          a'.description = a.description ∧
          a'.schedule = a.schedule ∧
          a'.max_participants = a.max_participants) := by
  rcases hop with rfl | rfl
  · cases h : Mergington.signup s n e with
    | ok s' =>
      have hap : applyOp s (.signup n e) = s' := by simp [applyOp, h]
      rcases signup_ok_elim h with ⟨a0, hga0, he0, hcap0, hs'⟩
      rw [hap, hs']
      constructor
      · intro n' hne
        exact getActivity_setActivity_ne hne
      · intro a hga
        have hh : a0 = a := by
          rw [hga0] at hga
          injection hga
        subst hh
        exact ⟨_, getActivity_setActivity_self hga0, rfl, rfl, rfl⟩
    | error err =>
      have hap : applyOp s (.signup n e) = s := by simp [applyOp, h]
      rw [hap]
      exact ⟨fun n' _ => rfl, fun a hga => ⟨a, hga, rfl, rfl, rfl⟩⟩
  · cases h : Mergington.unregister s n e with
    | ok s' =>
      have hap : applyOp s (.unregister n e) = s' := by simp [applyOp, h]
      rcases unregister_ok_elim h with ⟨a0, hga0, he0, hs'⟩
      rw [hap, hs']
      constructor
      · intro n' hne
        exact getActivity_setActivity_ne hne
      · intro a hga
        have hh : a0 = a := by
          rw [hga0] at hga
          injection hga
        subst hh
        exact ⟨_, getActivity_setActivity_self hga0, rfl, rfl, rfl⟩
    | error err =>
      have hap : applyOp s (.unregister n e) = s := by simp [applyOp, h]
      rw [hap]
      exact ⟨fun n' _ => rfl, fun a hga => ⟨a, hga, rfl, rfl, rfl⟩⟩

/-- Witness for C10: a signup for the Chess Club does not disturb the
(absent) "Art Club" entry. -/
theorem claim_C10_frame_witness :
    getActivity (applyOp chessStore (Op.signup "Chess Club" "a@x.com"))
        "Art Club" =
      getActivity chessStore "Art Club" :=
  (claim_C10_frame chessStore "Chess Club" "a@x.com" _ (Or.inl rfl)).1
    "Art Club" (by decide)

end Mergington
